import Mathlib

/-!
Verification development for the qubes-notification-proxy repository.

The Rust sources are shallowly embedded here:
* `src/maps.rs`: the bidirectional host/guest notification-ID maps;
* `src/lib.rs`: the text sanitizer, the image/action/category validators,
  and the host-side emitter `send_notification`;
* `src/bin/notification-proxy-server.rs`: version handshake, event handler
  tasks and the reply conversion of the host side;
* `src/bin/notification-proxy-client.rs`: version handshake and the reply
  dispatch of the guest side.

Unicode text is modelled as a list of code points (`List Nat`); 32-bit
machine integers whose overflow cannot occur on the executed paths are
modelled as `Nat`/`Int` with explicit bounds where they matter.
-/

namespace QubesNotifyProxy

/-! ## `src/maps.rs` — the bidirectional ID maps

`BTreeMap<NonZeroU32, NonZeroU32>` is modelled as a partial function
`Nat → Option Nat`; `BTreeMap::insert` replaces the binding of the key and
`BTreeMap::remove` deletes it, which is exactly `mapInsert`/`mapErase`. -/

def mapInsert (m : Nat → Option Nat) (k v : Nat) : Nat → Option Nat :=
  fun k2 => if k2 = k then some v else m k2

def mapErase (m : Nat → Option Nat) (k : Nat) : Nat → Option Nat :=
  fun k2 => if k2 = k then none else m k2

/-- The `Maps` struct of `src/maps.rs` (lines 35-39).  Keys and values are
the underlying `u32` values of the `NonZeroU32` entries. -/
structure Maps where
  guest_to_host_map : Nat → Option Nat
  host_to_guest_map : Nat → Option Nat
  last_id : Nat

/-- `impl Default for Maps` (maps.rs lines 41-49): empty maps, `last_id = 1`. -/
def mapsDefault : Maps :=
  { guest_to_host_map := fun _ => none
    host_to_guest_map := fun _ => none
    last_id := 1 }

/-- `fn next` (maps.rs lines 51-58): successor on nonzero `u32` with
wrap-around from `u32::MAX` to 1. -/
def next (t : Nat) : Nat :=
  if t = 4294967295 then 1 else t + 1

/-- The `while self.guest_to_host_map.contains_key(&self.last_id)` loop of
`Maps::next_id` (maps.rs lines 67-70), made total with fuel.  `none` means
the loop never found a free slot (the Rust loop would not terminate). -/
def findFree (m : Nat → Option Nat) : Nat → Nat → Option Nat
  | _, 0 => none
  | t, fuel + 1 => if m t = none then some t else findFree m (next t) fuel

/-- `Maps::next_id` (maps.rs lines 61-88).

* With a guest hint (`guest_id = some g`) both directions are inserted with
  plain `BTreeMap::insert`, the previous bindings being discarded, and the
  hint is returned.
* Without a hint, `last_id` is advanced past occupied guest slots; the
  insertion into `guest_to_host_map` is asserted fresh (guaranteed by the
  search loop) and the insertion into `host_to_guest_map` is asserted fresh
  ("notification daemon reused an ID without telling us").  A failing
  assertion is a Rust panic, modelled as `none`. -/
def Maps.next_id (m : Maps) (id : Nat) (guest_id : Option Nat) : Option (Nat × Maps) :=
  match guest_id with
  | some g =>
      some (g,
        { m with
          guest_to_host_map := mapInsert m.guest_to_host_map g id
          host_to_guest_map := mapInsert m.host_to_guest_map id g })
  | none =>
      match findFree m.guest_to_host_map (next m.last_id) 4294967296 with
      | none => none
      | some l =>
          if m.host_to_guest_map id = none then
            some (l,
              { guest_to_host_map := mapInsert m.guest_to_host_map l id
                host_to_guest_map := mapInsert m.host_to_guest_map id l
                last_id := l })
          else none

/-- `Maps::lookup_guest_id` (maps.rs lines 90-92). -/
def Maps.lookup_guest_id (m : Maps) (id : Nat) : Option Nat :=
  m.guest_to_host_map id

/-- `Maps::lookup_host_id` (maps.rs lines 94-98). -/
def Maps.lookup_host_id (m : Maps) (id : Nat) : Option Nat :=
  m.host_to_guest_map id

/-- `Maps::remove_host_id` (maps.rs lines 100-105): remove the
`host_to_guest_map` entry and, when one was present, remove the matching
`guest_to_host_map` entry, asserting that it pointed back at `id`.  The
outer `none` is the `assert_eq!` panic. -/
def Maps.remove_host_id (m : Maps) (id : Nat) : Option (Option Nat × Maps) :=
  match m.host_to_guest_map id with
  | none => some (none, m)
  | some g =>
      if m.guest_to_host_map g = some id then
        some (some g,
          { m with
            host_to_guest_map := mapErase m.host_to_guest_map id
            guest_to_host_map := mapErase m.guest_to_host_map g })
      else none

/-- `Maps::clear` (maps.rs lines 107-110): wipe both maps, keep `last_id`. -/
def Maps.clear (m : Maps) : Maps :=
  { m with
    guest_to_host_map := fun _ => none
    host_to_guest_map := fun _ => none }

/-- The inverse invariant of the two maps: for every live entry,
`guest_to_host[g] = h` if and only if `host_to_guest[h] = g`. -/
def MapsInv (m : Maps) : Prop :=
  ∀ g h : Nat, m.guest_to_host_map g = some h ↔ m.host_to_guest_map h = some g

/-- States reachable from the empty mapping by completed `next_id`,
`remove_host_id` and `clear` operations, where every hinted allocation is
restricted to a guest hint and a host ID that are not currently live (the
restriction under which the inverse invariant is preserved). -/
inductive ReachM : Maps → Prop where
  | empty : ReachM mapsDefault
  | allocHint (m : Maps) (h g : Nat) (m2 : Maps) :
      ReachM m →
      m.guest_to_host_map g = none →
      m.host_to_guest_map h = none →
      m.next_id h (some g) = some (g, m2) →
      ReachM m2
  | alloc (m : Maps) (h g : Nat) (m2 : Maps) :
      ReachM m →
      m.next_id h none = some (g, m2) →
      ReachM m2
  | removeHost (m : Maps) (h : Nat) (r : Option Nat) (m2 : Maps) :
      ReachM m →
      m.remove_host_id h = some (r, m2) →
      ReachM m2
  | clearStep (m : Maps) : ReachM m → ReachM m.clear

/-! ## `src/lib.rs` — the text sanitizer

`sanitize_str` (lib.rs lines 241-279) walks the code points of its input.
The external classifier `qubes_pure_code_point_safe_for_display` (a foreign
function from the qubes-pure C library, an external collaborator of this
repository) is a parameter `safe : Nat → Bool`.  `counter` counts the code
points pushed since the last newline, `lines` the newlines pushed; after
1000 run code points a newline is inserted, and the output stops at 500
newlines.  The Rust loop body is transcribed branch by branch; the
`res.push(...)` and the two trailing checks of each iteration are inlined
into each branch. -/

def MAX_LINES : Nat := 500

def MAX_CHARS_PER_LINE : Nat := 1000

/-- `iter.peek() == Some(&'\n')` (lib.rs line 257). -/
def peekIsNl : List Nat → Bool
  | c :: _ => c == 10
  | [] => false

def sanitize (safe : Nat → Bool) : List Nat → Nat → Nat → List Nat
  | [], _, _ => []
  | c :: rest, counter, lines =>
      if safe c || c == 9 then
        if counter + 1 ≥ MAX_CHARS_PER_LINE then
          c :: 10 :: (if lines + 1 ≥ MAX_LINES then [] else sanitize safe rest 0 (lines + 1))
        else
          c :: (if lines ≥ MAX_LINES then [] else sanitize safe rest (counter + 1) lines)
      else if c == 10 then
        10 :: (if lines + 1 ≥ MAX_LINES then [] else sanitize safe rest 0 (lines + 1))
      else if c == 13 then
        if peekIsNl rest then sanitize safe rest counter lines
        else
          10 :: (if lines + 1 ≥ MAX_LINES then [] else sanitize safe rest 0 (lines + 1))
      else
        if counter + 1 ≥ MAX_CHARS_PER_LINE then
          65533 :: 10 :: (if lines + 1 ≥ MAX_LINES then [] else sanitize safe rest 0 (lines + 1))
        else
          65533 :: (if lines ≥ MAX_LINES then [] else sanitize safe rest (counter + 1) lines)

/-- `pub fn sanitize_str` (lib.rs lines 241-279): the loop started with
`counter = 0` and `lines = 0`. -/
def sanitize_str (safe : Nat → Bool) (arg : List Nat) : List Nat :=
  sanitize safe arg 0 0

/-- Length of the longest newline-free run, as a fold: `cur` is the length
of the run in progress, `best` the longest completed run. -/
def runsAux : List Nat → Nat → Nat → Nat
  | [], cur, best => max cur best
  | c :: rest, cur, best =>
      if c = 10 then runsAux rest 0 (max cur best) else runsAux rest (cur + 1) best

/-- The longest newline-free run of a string. -/
def maxRun (l : List Nat) : Nat := runsAux l 0 0

/-- Strings on which `sanitize` acts as the identity when resumed from
state `(counter, lines)`: every newline-free run fits under the wrap limit
(`counter + 1 ≤ 999` at every push) and nothing follows the newline that
reaches the 500-line limit. -/
def sanFixed : List Nat → Nat → Nat → Bool
  | [], _, _ => true
  | c :: rest, counter, lines =>
      if c = 10 then
        if lines + 1 ≥ MAX_LINES then rest.isEmpty
        else sanFixed rest 0 (lines + 1)
      else
        decide (counter + 1 ≤ 999) && sanFixed rest (counter + 1) lines

/-- Input strings whose newline-free segments (split at both `\n` and `\r`)
stay under 1000 code points, counted from a run already `cur` long. -/
def inputRunsOk : List Nat → Nat → Bool
  | [], _ => true
  | c :: rest, cur =>
      if c = 10 || c = 13 then inputRunsOk rest 0
      else decide (cur + 1 ≤ 999) && inputRunsOk rest (cur + 1)

/-! ## `src/lib.rs` — image parameters and `serialize_image` -/

/-- `ImageParameters` (lib.rs lines 134-151).  The six numeric fields are
`i32` in Rust, modelled as `Int`; the byte vector is a list of byte
values. -/
structure ImageParameters where
  untrusted_width : Int
  untrusted_height : Int
  untrusted_rowstride : Int
  untrusted_has_alpha : Bool
  untrusted_bits_per_sample : Int
  untrusted_channels : Int
  untrusted_data : List Nat

def MAX_SIZE : Nat := 2097152

def MAX_WIDTH : Int := 255

def MAX_HEIGHT : Int := 255

/-- The accepted `(width, height, rowstride, has_alpha, bits_per_sample,
channels, data)` tuple produced by `serialize_image`. -/
structure SerializedImage where
  width : Int
  height : Int
  rowstride : Int
  has_alpha : Bool
  bits_per_sample : Int
  channels : Int
  data : List Nat

/-- `fn serialize_image` (lib.rs lines 156-227), check for check in source
order.  Rust `i32` division truncates toward zero, hence `Int.tdiv`; at
both division sites the operands are already known nonnegative.  The
`data.len() as i32` cast is exact because `data.len() ≤ MAX_SIZE < 2^31`
has been checked. -/
def serialize_image (p : ImageParameters) : Except String SerializedImage :=
  let has_alpha := p.untrusted_has_alpha
  if p.untrusted_bits_per_sample ≠ 8 then
    .error ("Wrong number of bits per sample")
  else
  let bits_per_sample := p.untrusted_bits_per_sample
  if p.untrusted_data.length > MAX_SIZE then
    .error ("Too much data")
  else
  let data := p.untrusted_data
  let channels : Int := 3 + (if has_alpha then 1 else 0)
  if p.untrusted_channels ≠ channels then
    .error ("Wrong number of channels")
  else
  if p.untrusted_width < 1 ∨ p.untrusted_height < 1 ∨ p.untrusted_rowstride < channels then
    .error ("Too small width, height, or stride")
  else
  if p.untrusted_width > MAX_WIDTH ∨ p.untrusted_height > MAX_HEIGHT then
    .error ("Width or height too large")
  else
  if Int.tdiv (data.length : Int) p.untrusted_height < p.untrusted_rowstride then
    .error ("Image too large")
  else
  if Int.tdiv p.untrusted_rowstride channels < p.untrusted_width then
    .error ("Row stride too small")
  else
    .ok
      { width := p.untrusted_width
        height := p.untrusted_height
        rowstride := p.untrusted_rowstride
        has_alpha := has_alpha
        bits_per_sample := bits_per_sample
        channels := channels
        data := data }

/-! ## `src/lib.rs` — action-name and category validators -/

/-- `fn is_valid_action_name` (lib.rs lines 48-67) on the byte values of
the action string: 1-255 bytes, first byte an ASCII letter, subsequent
bytes letters, digits, `-`, `.` or `_`. -/
def is_valid_action_name (action : List Nat) : Bool :=
  match action with
  | [] => false
  | b0 :: rest =>
      if (b0 :: rest).length > 255 then false
      else
        (decide (97 ≤ b0 ∧ b0 ≤ 122) || decide (65 ≤ b0 ∧ b0 ≤ 90)) &&
        rest.all fun b =>
          decide (97 ≤ b ∧ b ≤ 122) || decide (65 ≤ b ∧ b ≤ 90) ||
          decide (48 ≤ b ∧ b ≤ 57) || b == 45 || b == 46 || b == 95

/-- A byte in `a-z`. -/
def azB (b : Nat) : Bool := decide (97 ≤ b ∧ b ≤ 122)

/-- A byte in `a-z` or a literal `.`. -/
def azdotB (b : Nat) : Bool := azB b || b == 46

/-- The category validation block of `send_notification` (lib.rs lines
566-584) on the byte values of the category string: at most 64 bytes, the
first byte in `a-z` (`category.get(0)` also rejects the empty string),
every later byte in `a-z` or `.`, and the last byte not `.`. -/
def categoryValid (category : List Nat) : Bool :=
  if category.length > 64 then false
  else
    match category with
    | [] => false
    | b0 :: rest =>
        azB b0 && rest.all azdotB && ((b0 :: rest).getLastD 0 != 46)

/-- Modelled from the spec: a byte string matching the regular expression
of the specification, a first byte in `a-z`, then up to 62 bytes
in `a-z` or `.`, then a final byte in `a-z` (so 2 to 64 bytes in all).
Stated over byte lists for comparison with `categoryValid`. -/
def categorySpecRegex (category : List Nat) : Bool :=
  match category with
  | [] => false
  | [_] => false
  | b0 :: rest =>
      decide (2 ≤ (b0 :: rest).length) && decide ((b0 :: rest).length ≤ 64) &&
      azB b0 && rest.dropLast.all azdotB && azB (rest.getLastD 0)

/-! ## `src/lib.rs` — reply messages, versions, notification payload -/

/-- `enum ReplyMessage` (lib.rs lines 69-109). -/
inductive ReplyMessage where
  | idReply (id : Nat) (sequence : Nat)
  | dbusError (name : String) (message : Option String) (sequence : Nat)
  | unknownError (sequence : Nat)
  | dismissed (id : Nat) (reason : Nat)
  | actionInvoked (id : Nat) (action : String)
  | serverRestart
deriving DecidableEq

/-- `enum Urgency` (lib.rs lines 111-117). -/
inductive Urgency where
  | low
  | normal
  | critical
deriving DecidableEq

def MAJOR_VERSION : Nat := 1

def MINOR_VERSION : Nat := 0

/-- `const fn merge_versions` (lib.rs lines 126-128): the major version in
the upper 16 bits, the minor in the lower 16.  Arguments are `u16`. -/
def merge_versions (major minor : Nat) : Nat :=
  major % 65536 * 65536 + minor % 65536

/-- `const fn split_version` (lib.rs lines 130-132). -/
def split_version (combined : Nat) : Nat × Nat :=
  (combined / 65536 % 65536, combined % 65536)

/-- The `Notification::V1` payload (lib.rs lines 393-410).  Strings are
lists of code points, the category a list of bytes. -/
structure NotificationV1 where
  suppress_sound : Bool
  transient : Bool
  resident : Bool
  urgency : Option Urgency
  replaces_id : Nat
  summary : List Nat
  body : List Nat
  actions : List (List Nat)
  category : Option (List Nat)
  expire_timeout : Int
  image : Option ImageParameters

/-! ## `src/lib.rs` — the host-side emitter -/

/-- The subset of the `Capabilities` bitflags (lib.rs lines 281-296) that
`send_notification` consults. -/
structure Capabilities where
  body : Bool
  body_markup : Bool
  persistence : Bool
  sound : Bool
  actions : Bool
deriving DecidableEq

/-- The `zbus::Error` values produced or propagated by
`send_notification`: `Failure`, `Unsupported`, `MissingParameter` and the
daemon-originated `MethodError`. -/
inductive ZbusError where
  | failure (msg : String)
  | unsupported
  | missingParameter (msg : String)
  | methodError (name : String) (message : Option String)
deriving DecidableEq

/-- One hint entry of the `hints` table assembled by `send_notification`
(lib.rs lines 544-587), in insertion order. -/
inductive Hint where
  | urgency (value : Nat)
  | resident
  | suppressSound
  | transient
  | category (value : List Nat)
deriving DecidableEq

/-- The arguments of the one `Notify` call on the real notification
service (lib.rs lines 623-635). -/
structure NotifyCall where
  app_name : String
  replaces_id : Nat
  app_icon : String
  summary : List Nat
  body : List Nat
  actions : List (List Nat)
  hints : List Hint
  expire_timeout : Int
deriving DecidableEq

inductive SendResult where
  | ok (guest_id : Nat)
  | err (e : ZbusError)
  | panicked
deriving DecidableEq

/-- Result of one `send_notification` run: the returned value, the
`Notify` call made to the real service (if any), and the mapping state
afterwards. -/
structure SendOutcome where
  result : SendResult
  notifyCall : Option NotifyCall
  maps : Maps

/-- The per-emitter configuration: negotiated capabilities, the summary
prefix string (`prefix` field, `"<qube>: "`) and the application name. -/
structure EmitterConfig where
  capabilities : Capabilities
  prependText : List Nat
  application_name : String

/-- The action-processing loop of `send_notification` (lib.rs lines
524-540): even-indexed elements must be valid action names and are passed
through, odd-indexed labels are sanitized.  `none` is the
`"Invalid action name"` early return. -/
def processActions (safe : Nat → Bool) : List (List Nat) → Nat → Option (List (List Nat))
  | [], _ => some []
  | s :: rest, count =>
      if count % 2 = 0 then
        if is_valid_action_name s then
          (processActions safe rest (count + 1)).map fun acc => s :: acc
        else none
      else
        (processActions safe rest (count + 1)).map fun acc => sanitize_str safe s :: acc

/-- The body-markup escaping loop of `send_notification` (lib.rs lines
606-615), on code points: the five characters escaped by the source
become their HTML entities. -/
def escape_body : List Nat → List Nat
  | [] => []
  | c :: rest =>
      (if c = 60 then [38, 108, 116, 59]
       else if c = 62 then [38, 103, 116, 59]
       else if c = 38 then [38, 97, 109, 112, 59]
       else if c = 39 then [38, 97, 112, 111, 115, 59]
       else if c = 34 then [38, 113, 117, 111, 116, 59]
       else [c]) ++ escape_body rest

/-- `NotificationEmitter::send_notification` (lib.rs lines 475-640),
parameterized by the display classifier `safe` and by the real daemon's
answer `daemonReply` to the one `Notify` call.  The image hint block is
inside `if false` in the source (lib.rs line 589) and therefore absent.
After a successful `Notify`, a daemon answer of 0 hits the
`expect("Notification daemon sent a zero ID?")` panic; the final
allocation is `Maps::next_id` with the resolved `replaces_id` hint (the
call site, lib.rs line 639, is arity-consistent with `Maps::next_id` only
with the resolved guest hint as second argument). -/
def send_notification (safe : Nat → Bool) (cfg : EmitterConfig) (m : Maps)
    (n : NotificationV1) (daemonReply : Except ZbusError Nat) : SendOutcome :=
  let guest_id : Option Nat := if n.replaces_id = 0 then none else some n.replaces_id
  let hostLookup : Except ZbusError (Option Nat) :=
    match guest_id with
    | none => .ok none
    | some gid =>
        match m.lookup_guest_id gid with
        | none =>
            .error (.failure ("ID " ++ Nat.repr gid ++ " not found in guest-to-host lookup map"))
        | some hid => .ok (some hid)
  match hostLookup with
  | .error e => ⟨.err e, none, m⟩
  | .ok host_id =>
      if n.expire_timeout < -1 then ⟨.err .unsupported, none, m⟩
      else if n.actions.length % 2 ≠ 0 then
        ⟨.err (.failure ("Actions must have an even length, got " ++ Nat.repr n.actions.length)),
          none, m⟩
      else
        let application_name := cfg.application_name
        let icon : String := ""
        let actionsOut : Option (List (List Nat)) :=
          if cfg.capabilities.actions then processActions safe n.actions 0 else some []
        match actionsOut with
        | none => ⟨.err (.failure ("Invalid action name")), none, m⟩
        | some actions =>
            let hints0 : List Hint :=
              match n.urgency with
              | some u =>
                  [Hint.urgency (match u with | .low => 0 | .normal => 1 | .critical => 2)]
              | none => []
            let hints1 := hints0 ++
              (if n.resident && cfg.capabilities.persistence then [Hint.resident] else [])
            let hints2 := hints1 ++
              (if n.suppress_sound && cfg.capabilities.sound then [Hint.suppressSound] else [])
            let hints3 := hints2 ++
              (if n.transient && cfg.capabilities.persistence then [Hint.transient] else [])
            let categoryStep : Except ZbusError (List Hint) :=
              match n.category with
              | none => .ok hints3
              | some cat =>
                  if categoryValid cat then .ok (hints3 ++ [Hint.category cat])
                  else .error (.missingParameter ("Invalid category"))
            match categoryStep with
            | .error e => ⟨.err e, none, m⟩
            | .ok hints =>
                let escaped_body : List Nat :=
                  if cfg.capabilities.body_markup then escape_body (sanitize_str safe n.body)
                  else sanitize_str safe n.body
                let host_id_num : Nat := match host_id with | none => 0 | some i => i
                let call : NotifyCall :=
                  { app_name := application_name
                    replaces_id := host_id_num
                    app_icon := icon
                    summary := cfg.prependText ++ sanitize_str safe n.summary
                    body := escaped_body
                    actions := actions
                    hints := hints
                    expire_timeout := n.expire_timeout }
                match daemonReply with
                | .error e => ⟨.err e, some call, m⟩
                | .ok idNum =>
                    if idNum = 0 then ⟨.panicked, some call, m⟩
                    else
                      match m.next_id idNum guest_id with
                      | none => ⟨.panicked, some call, m⟩
                      | some (g, m2) => ⟨.ok g, some call, m2⟩

/-- `NotificationEmitter::translate_host_id` (lib.rs lines 448-459):
`HostId::new_less_safe(0)` is `None`, which maps to `Some(0)`; otherwise a
`lookup_host_id`, a miss dropping the event. -/
def translate_host_id (m : Maps) (id : Nat) : Option Nat :=
  if id = 0 then some 0
  else
    match m.lookup_host_id id with
    | none => none
    | some guest => some guest

/-- `NotificationEmitter::remove_host_id` (lib.rs lines 463-474): the same
zero-ID shortcut around `Maps::remove_host_id`; the outer `none` is the
assertion panic inside `Maps::remove_host_id`. -/
def emitter_remove_host_id (m : Maps) (id : Nat) : Option (Option Nat × Maps) :=
  if id = 0 then some (some 0, m)
  else Maps.remove_host_id m id

/-! ## `src/bin/notification-proxy-server.rs` — host side -/

/-- The handshake check of the server (server bin lines 40-51): after
writing its own version word, it reads the peer's word and panics
(`none`) unless the peer major equals its own and the peer minor does not
exceed its own. -/
def server_handshake (reply_version : Nat) : Option Unit :=
  let reply_major := (split_version reply_version).1
  let reply_minor := (split_version reply_version).2
  if reply_major ≠ MAJOR_VERSION ∨ reply_minor > MINOR_VERSION then none else some ()

/-- One `ReplyMessage` written back for a finished `send_notification`
task (server bin lines 144-159): `Ok` becomes `Id`, a daemon
`MethodError` becomes `DBusError`, every other error becomes
`UnknownError`.  A panicked task writes nothing (`none`). -/
def replyFor (out : SendResult) (sequence : Nat) : Option ReplyMessage :=
  match out with
  | .ok id => some (.idReply id sequence)
  | .err (.methodError name message) => some (.dbusError name message sequence)
  | .err _ => some (.unknownError sequence)
  | .panicked => none

/-- Result of one server-side event-handler iteration: the mapping state
afterwards and the frames written to the guest. -/
structure HandlerStep where
  maps : Maps
  emitted : List ReplyMessage

/-- One iteration of the `owner_changed_handle` task (server bin lines
57-68): the bus name is asserted to be `org.freedesktop.Notifications`
(`none` on the assertion panic) and `emitter.clear()`
(`NotificationEmitter::clear`, lib.rs lines 460-462) wipes the maps.
Nothing is written to the pipe. -/
def owner_changed_step (m : Maps) (name : String) : Option HandlerStep :=
  if name = "org.freedesktop.Notifications" then some { maps := m.clear, emitted := [] }
  else none

/-- One iteration of the `closed_stream_handle` task (server bin lines
70-91): `remove_host_id` translates (and drops) the host ID; a miss skips
the event, a hit emits `Dismissed`. -/
def closed_signal_step (m : Maps) (id reason : Nat) : Option HandlerStep :=
  (emitter_remove_host_id m id).map fun p =>
    match p.1 with
    | none => { maps := p.2, emitted := [] }
    | some guest => { maps := p.2, emitted := [ReplyMessage.dismissed guest reason] }

/-- One iteration of the `invoked_stream_handle` task (server bin lines
94-115): `translate_host_id` looks up without removing; a miss skips the
event, a hit emits `ActionInvoked`. -/
def invoked_signal_step (m : Maps) (id : Nat) (action_key : String) : HandlerStep :=
  match translate_host_id m id with
  | none => { maps := m, emitted := [] }
  | some guest => { maps := m, emitted := [ReplyMessage.actionInvoked guest action_key] }

/-! ## `src/bin/notification-proxy-client.rs` — guest side -/

/-- The handshake of the client (client bin lines 241-260): it reads the
daemon's word, answers with its own major and `min(daemon_minor,
MINOR_VERSION)`, and only then panics when the majors differ.  The result
is the word written back, paired with the negotiated minor (`none` when
the client panics). -/
def client_handshake (version : Nat) : Nat × Option Nat :=
  let daemon_major_version := (split_version version).1
  let daemon_minor_version := (split_version version).2
  let minor_version := min daemon_minor_version MINOR_VERSION
  (merge_versions MAJOR_VERSION minor_version,
    if daemon_major_version ≠ MAJOR_VERSION then none else some minor_version)

/-- A local D-Bus signal emitted by the guest server object. -/
inductive GuestSignal where
  | notificationClosed (id : Nat) (reason : Nat)
  | actionInvoked (id : Nat) (action_key : String)
deriving DecidableEq

/-- Result of dispatching one inbound `ReplyMessage` on the guest side:
either a panic (with the panic message) or the remaining parking-slot
sequences, the completions delivered to parked `Notify` calls, and the
local signals emitted. -/
inductive DispatchOutcome where
  | panic (msg : String)
  | ok (slots : List Nat) (completions : List (Nat × Except (String × Option String) Nat))
      (signals : List GuestSignal)

/-- The reply dispatch match of the guest's `client_server` loop (client
bin lines 307-353).  The parking table is modelled by the list of parked
sequence numbers.  `Id` and `DBusError` must find their slot
(`expect("server violated the protocol")`); `UnknownError` hits `todo!()`;
the source match has no `ServerRestart` arm at all, modelled as a panic
as well. -/
def handle_reply (slots : List Nat) : ReplyMessage → DispatchOutcome
  | .idReply id sequence =>
      if sequence ∈ slots then
        .ok (slots.erase sequence) [(sequence, .ok id)] []
      else .panic ("server violated the protocol")
  | .dbusError name message sequence =>
      if sequence ∈ slots then
        .ok (slots.erase sequence) [(sequence, .error (name, message))] []
      else .panic ("server violated the protocol")
  | .dismissed id reason => .ok slots [] [GuestSignal.notificationClosed id reason]
  | .actionInvoked id action => .ok slots [] [GuestSignal.actionInvoked id action]
  | .unknownError _ => .panic ("not yet implemented")
  | .serverRestart => .panic ("no match arm in source")

/-! ## Theorems about the ID maps (claim C1) -/

theorem findFree_free {mp : Nat → Option Nat} :
    ∀ fuel t l, findFree mp t fuel = some l → mp l = none := by
  intro fuel
  induction fuel with
  | zero => intro t l h; exact absurd h (by simp [findFree])
  | succ n ih =>
      intro t l h
      rw [findFree] at h
      by_cases hmt : mp t = none
      · rw [if_pos hmt] at h
        cases h
        exact hmt
      · rw [if_neg hmt] at h
        exact ih _ _ h

theorem next_id_hint_spec {m : Maps} {h g g2 : Nat} {m2 : Maps}
    (hid : m.next_id h (some g) = some (g2, m2)) :
    g2 = g ∧ m2.guest_to_host_map = mapInsert m.guest_to_host_map g h ∧
      m2.host_to_guest_map = mapInsert m.host_to_guest_map h g := by
  unfold Maps.next_id at hid
  cases hid
  exact ⟨rfl, rfl, rfl⟩

theorem next_id_none_spec {m : Maps} {h g : Nat} {m2 : Maps}
    (hid : m.next_id h none = some (g, m2)) :
    m.guest_to_host_map g = none ∧ m.host_to_guest_map h = none ∧
      m2.guest_to_host_map = mapInsert m.guest_to_host_map g h ∧
      m2.host_to_guest_map = mapInsert m.host_to_guest_map h g := by
  unfold Maps.next_id at hid
  cases hf : findFree m.guest_to_host_map (next m.last_id) 4294967296 with
  | none =>
      rw [hf] at hid
      exact Option.noConfusion hid
  | some l =>
      rw [hf] at hid
      have hid2 : (if m.host_to_guest_map h = none then
          some (l, (⟨mapInsert m.guest_to_host_map l h,
            mapInsert m.host_to_guest_map h l, l⟩ : Maps))
          else none) = some (g, m2) := hid
      by_cases hh : m.host_to_guest_map h = none
      · rw [if_pos hh] at hid2
        cases hid2
        exact ⟨findFree_free _ _ _ hf, hh, rfl, rfl⟩
      · rw [if_neg hh] at hid2
        exact Option.noConfusion hid2

theorem remove_host_id_spec {m : Maps} {h : Nat} {r : Option Nat} {m2 : Maps}
    (hid : m.remove_host_id h = some (r, m2)) :
    (r = none ∧ m2 = m) ∨
      ∃ g, r = some g ∧ m.host_to_guest_map h = some g ∧
        m2.guest_to_host_map = mapErase m.guest_to_host_map g ∧
        m2.host_to_guest_map = mapErase m.host_to_guest_map h := by
  unfold Maps.remove_host_id at hid
  cases hhg : m.host_to_guest_map h with
  | none =>
      rw [hhg] at hid
      cases hid
      exact Or.inl ⟨rfl, rfl⟩
  | some g =>
      rw [hhg] at hid
      have hid2 : (if m.guest_to_host_map g = some h then
          some (some g, (⟨mapErase m.guest_to_host_map g,
            mapErase m.host_to_guest_map h, m.last_id⟩ : Maps))
          else none) = some (r, m2) := hid
      by_cases hc : m.guest_to_host_map g = some h
      · rw [if_pos hc] at hid2
        cases hid2
        exact Or.inr ⟨g, rfl, rfl, rfl, rfl⟩
      · rw [if_neg hc] at hid2
        exact Option.noConfusion hid2

theorem mapsInv_insert {m : Maps} (hinv : MapsInv m) {g h : Nat}
    (hg : m.guest_to_host_map g = none) (hh : m.host_to_guest_map h = none)
    {m2 : Maps}
    (eg : m2.guest_to_host_map = mapInsert m.guest_to_host_map g h)
    (eh : m2.host_to_guest_map = mapInsert m.host_to_guest_map h g) :
    MapsInv m2 := by
  intro g2 h2
  rw [eg, eh]
  show (if g2 = g then some h else m.guest_to_host_map g2) = some h2 ↔
       (if h2 = h then some g else m.host_to_guest_map h2) = some g2
  by_cases e1 : g2 = g <;> by_cases e2 : h2 = h
  · simp [e1, e2]
  · rw [if_pos e1, if_neg e2]
    constructor
    · intro hx
      exact (e2 (Option.some.inj hx).symm).elim
    · intro hx
      have hx2 : m.host_to_guest_map h2 = some g := by rw [← e1]; exact hx
      have hy := (hinv g h2).mpr hx2
      rw [hg] at hy
      exact Option.noConfusion hy
  · rw [if_neg e1, if_pos e2]
    constructor
    · intro hx
      have hx2 : m.guest_to_host_map g2 = some h := by rw [← e2]; exact hx
      have hy := (hinv g2 h).mp hx2
      rw [hh] at hy
      exact Option.noConfusion hy
    · intro hx
      exact (e1 (Option.some.inj hx).symm).elim
  · rw [if_neg e1, if_neg e2]
    exact hinv g2 h2

theorem mapsInv_erase {m : Maps} (hinv : MapsInv m) {g h : Nat}
    (hhg : m.host_to_guest_map h = some g)
    {m2 : Maps}
    (eg : m2.guest_to_host_map = mapErase m.guest_to_host_map g)
    (eh : m2.host_to_guest_map = mapErase m.host_to_guest_map h) :
    MapsInv m2 := by
  have hgh : m.guest_to_host_map g = some h := (hinv g h).mpr hhg
  intro g2 h2
  rw [eg, eh]
  show (if g2 = g then none else m.guest_to_host_map g2) = some h2 ↔
       (if h2 = h then none else m.host_to_guest_map h2) = some g2
  by_cases k1 : g2 = g <;> by_cases k2 : h2 = h
  · simp [k1, k2]
  · rw [if_pos k1, if_neg k2]
    constructor
    · intro hx
      exact Option.noConfusion hx
    · intro hx
      have hx2 : m.host_to_guest_map h2 = some g := by rw [← k1]; exact hx
      have hy := (hinv g h2).mpr hx2
      rw [hgh] at hy
      exact (k2 (Option.some.inj hy).symm).elim
  · rw [if_neg k1, if_pos k2]
    constructor
    · intro hx
      have hx2 : m.guest_to_host_map g2 = some h := by rw [← k2]; exact hx
      have hy := (hinv g2 h).mp hx2
      rw [hhg] at hy
      exact (k1 (Option.some.inj hy).symm).elim
    · intro hx
      exact Option.noConfusion hx
  · rw [if_neg k1, if_neg k2]
    exact hinv g2 h2

/-- C1 (amended): starting from the empty mapping, along every sequence of
completed `next_id`, `remove_host_id` and `clear` operations in which each
hinted `next_id` uses a guest hint and host ID that are not currently
live, the two maps are exact inverses; moreover an unhinted `next_id` that
completes has inserted into both maps at keys that were free (its two
assertions guarantee no silent overwrite). -/
theorem maps_inverse_invariant :
    (∀ m, ReachM m → MapsInv m) ∧
    (∀ (m : Maps) (h g : Nat) (m2 : Maps), m.next_id h none = some (g, m2) →
      m.guest_to_host_map g = none ∧ m.host_to_guest_map h = none) := by
  constructor
  · intro m hr
    induction hr with
    | empty =>
        intro g h
        constructor <;> (intro hx; exact Option.noConfusion hx)
    | allocHint m h g m2 hr hg hh hid ih =>
        obtain ⟨-, eg, eh⟩ := next_id_hint_spec hid
        exact mapsInv_insert ih hg hh eg eh
    | alloc m h g m2 hr hid ih =>
        obtain ⟨hg, hh, eg, eh⟩ := next_id_none_spec hid
        exact mapsInv_insert ih hg hh eg eh
    | removeHost m h r m2 hr hid ih =>
        rcases remove_host_id_spec hid with ⟨-, rfl⟩ | ⟨g, -, hhg, eg, eh⟩
        · exact ih
        · exact mapsInv_erase ih hhg eg eh
    | clearStep m hr ih =>
        intro g h
        constructor <;> (intro hx; exact Option.noConfusion hx)
  · intro m h g m2 hid
    obtain ⟨hg, hh, -, -⟩ := next_id_none_spec hid
    exact ⟨hg, hh⟩

/-- The state after allocating host ID 7 without a hint from the empty
mapping: guest ID 2 is handed out. -/
def wAlloc : Maps :=
  { guest_to_host_map := mapInsert mapsDefault.guest_to_host_map 2 7
    host_to_guest_map := mapInsert mapsDefault.host_to_guest_map 7 2
    last_id := 2 }

theorem maps_inverse_invariant_witness :
    MapsInv (Maps.clear mapsDefault) ∧
    (mapsDefault.guest_to_host_map 2 = none ∧ mapsDefault.host_to_guest_map 7 = none) :=
  ⟨maps_inverse_invariant.1 _ (ReachM.clearStep _ ReachM.empty),
    maps_inverse_invariant.2 mapsDefault 7 2 wAlloc rfl⟩

/-- The mapping state after `next_id 1 (some 5)` from the empty mapping. -/
def cm1 : Maps :=
  match mapsDefault.next_id 1 (some 5) with
  | some p => p.2
  | none => mapsDefault

/-- The mapping state after `next_id 2 (some 5)` from `cm1`. -/
def cm2 : Maps :=
  match cm1.next_id 2 (some 5) with
  | some p => p.2
  | none => cm1

/-- C1 (counterexample): the sequence `next_id 1 (some 5)` then
`next_id 2 (some 5)` of hinted allocations silently overwrites the live
entry `5 ↦ 1` of `guest_to_host_map` and leaves the maps in a state where
`host_to_guest_map[1] = 5` but `guest_to_host_map[5] = 2`: the claimed
inverse property fails. -/
theorem maps_inverse_counterexample :
    cm1.guest_to_host_map 5 = some 1 ∧
    cm2.guest_to_host_map 5 = some 2 ∧
    cm2.host_to_guest_map 1 = some 5 ∧
    cm2.host_to_guest_map 2 = some 5 ∧
    ¬ MapsInv cm2 := by
  refine ⟨rfl, rfl, rfl, rfl, ?_⟩
  intro hinv
  have h1 : cm2.guest_to_host_map 5 = some 1 := (hinv 5 1).mpr rfl
  have h2 : cm2.guest_to_host_map 5 = some 2 := rfl
  rw [h2] at h1
  exact absurd (Option.some.inj h1) (by decide)

/-! ## Theorems about zero-ID translation (claim C10) -/

/-- C10: a `NotificationClosed` or `ActionInvoked` signal carrying host ID
0 is forwarded to the guest with ID 0 rather than dropped —
`translate_host_id 0` and the emitter-level `remove_host_id 0` both answer
`Some(0)` without consulting or changing the maps — and the two handler
tasks emit the corresponding reply with ID 0, the mapping state
unchanged. -/
theorem zero_host_id_forwarded :
    ∀ (m : Maps) (reason : Nat) (action_key : String),
      translate_host_id m 0 = some 0 ∧
      emitter_remove_host_id m 0 = some (some 0, m) ∧
      closed_signal_step m 0 reason =
        some { maps := m, emitted := [ReplyMessage.dismissed 0 reason] } ∧
      invoked_signal_step m 0 action_key =
        { maps := m, emitted := [ReplyMessage.actionInvoked 0 action_key] } := by
  intro m reason action_key
  exact ⟨rfl, rfl, rfl, rfl⟩

/-! ## Theorems about the sanitizer (claims C2 and C5) -/

/-- Number of newlines in a string. -/
def countNl : List Nat → Nat
  | [] => 0
  | c :: rest => (if c = 10 then 1 else 0) + countNl rest

theorem sanitize_mem_chars (safe : Nat → Bool) :
    ∀ (l : List Nat) (counter lines : Nat) (c : Nat), c ∈ sanitize safe l counter lines →
      safe c = true ∨ c = 9 ∨ c = 10 ∨ c = 65533 := by
  intro l counter lines
  induction l, counter, lines using sanitize.induct safe with
  | case1 counter lines =>
      intro c hc
      simp [sanitize] at hc
  | case2 a rest counter lines h1 h2 ih =>
      intro c hc
      rw [sanitize, if_pos h1, if_pos h2] at hc
      rcases List.mem_cons.mp hc with rfl | hc
      · rcases (show safe c = true ∨ c = 9 by simpa using h1) with h | h
        · exact Or.inl h
        · exact Or.inr (Or.inl h)
      rcases List.mem_cons.mp hc with rfl | hc
      · exact Or.inr (Or.inr (Or.inl rfl))
      by_cases h3 : lines + 1 ≥ MAX_LINES
      · rw [if_pos h3] at hc
        simp at hc
      · rw [if_neg h3] at hc
        exact ih c hc
  | case3 a rest counter lines h1 h2 ih =>
      intro c hc
      rw [sanitize, if_pos h1, if_neg h2] at hc
      rcases List.mem_cons.mp hc with rfl | hc
      · rcases (show safe c = true ∨ c = 9 by simpa using h1) with h | h
        · exact Or.inl h
        · exact Or.inr (Or.inl h)
      by_cases h3 : lines ≥ MAX_LINES
      · rw [if_pos h3] at hc
        simp at hc
      · rw [if_neg h3] at hc
        exact ih c hc
  | case4 a rest counter lines h1 h2 ih =>
      intro c hc
      rw [sanitize, if_neg h1, if_pos h2] at hc
      rcases List.mem_cons.mp hc with rfl | hc
      · exact Or.inr (Or.inr (Or.inl rfl))
      by_cases h3 : lines + 1 ≥ MAX_LINES
      · rw [if_pos h3] at hc
        simp at hc
      · rw [if_neg h3] at hc
        exact ih c hc
  | case5 a rest counter lines h1 h2 h3 h4 ih =>
      intro c hc
      rw [sanitize, if_neg h1, if_neg (by simpa using h2), if_pos h3, if_pos h4] at hc
      exact ih c hc
  | case6 a rest counter lines h1 h2 h3 h4 ih =>
      intro c hc
      rw [sanitize, if_neg h1, if_neg (by simpa using h2), if_pos h3, if_neg (by
        simpa using h4)] at hc
      rcases List.mem_cons.mp hc with rfl | hc
      · exact Or.inr (Or.inr (Or.inl rfl))
      by_cases h5 : lines + 1 ≥ MAX_LINES
      · rw [if_pos h5] at hc
        simp at hc
      · rw [if_neg h5] at hc
        exact ih c hc
  | case7 a rest counter lines h1 h2 h3 h4 ih =>
      intro c hc
      rw [sanitize, if_neg h1, if_neg (by simpa using h2), if_neg (by simpa using h3),
        if_pos h4] at hc
      rcases List.mem_cons.mp hc with rfl | hc
      · exact Or.inr (Or.inr (Or.inr rfl))
      rcases List.mem_cons.mp hc with rfl | hc
      · exact Or.inr (Or.inr (Or.inl rfl))
      by_cases h5 : lines + 1 ≥ MAX_LINES
      · rw [if_pos h5] at hc
        simp at hc
      · rw [if_neg h5] at hc
        exact ih c hc
  | case8 a rest counter lines h1 h2 h3 h4 ih =>
      intro c hc
      rw [sanitize, if_neg h1, if_neg (by simpa using h2), if_neg (by simpa using h3),
        if_neg h4] at hc
      rcases List.mem_cons.mp hc with rfl | hc
      · exact Or.inr (Or.inr (Or.inr rfl))
      by_cases h5 : lines ≥ MAX_LINES
      · rw [if_pos h5] at hc
        simp at hc
      · rw [if_neg h5] at hc
        exact ih c hc

theorem sanitize_countNl (safe : Nat → Bool) (h10 : safe 10 = false) :
    ∀ (l : List Nat) (counter lines : Nat), lines < MAX_LINES →
      countNl (sanitize safe l counter lines) + lines ≤ MAX_LINES := by
  intro l counter lines
  induction l, counter, lines using sanitize.induct safe with
  | case1 counter lines =>
      intro hl
      simp [sanitize, countNl]
      omega
  | case2 a rest counter lines h1 h2 ih =>
      intro hl
      have ha : a ≠ 10 := by
        rcases (show safe a = true ∨ a = 9 by simpa using h1) with h | h
        · intro he; rw [he, h10] at h; exact Bool.noConfusion h
        · omega
      rw [sanitize, if_pos h1, if_pos h2]
      by_cases h3 : lines + 1 ≥ MAX_LINES
      · rw [if_pos h3]
        simp [countNl, ha]
        omega
      · rw [if_neg h3]
        have := ih (by omega)
        simp [countNl, ha]
        omega
  | case3 a rest counter lines h1 h2 ih =>
      intro hl
      have ha : a ≠ 10 := by
        rcases (show safe a = true ∨ a = 9 by simpa using h1) with h | h
        · intro he; rw [he, h10] at h; exact Bool.noConfusion h
        · omega
      rw [sanitize, if_pos h1, if_neg h2, if_neg (by omega : ¬lines ≥ MAX_LINES)]
      have := ih hl
      simp [countNl, ha]
      omega
  | case4 a rest counter lines h1 h2 ih =>
      intro hl
      rw [sanitize, if_neg h1, if_pos h2]
      by_cases h3 : lines + 1 ≥ MAX_LINES
      · rw [if_pos h3]
        simp [countNl]
        omega
      · rw [if_neg h3]
        have := ih (by omega)
        simp [countNl]
        omega
  | case5 a rest counter lines h1 h2 h3 h4 ih =>
      intro hl
      rw [sanitize, if_neg h1, if_neg (by simpa using h2), if_pos h3, if_pos h4]
      exact ih hl
  | case6 a rest counter lines h1 h2 h3 h4 ih =>
      intro hl
      rw [sanitize, if_neg h1, if_neg (by simpa using h2), if_pos h3,
        if_neg (by simpa using h4)]
      by_cases h5 : lines + 1 ≥ MAX_LINES
      · rw [if_pos h5]
        simp [countNl]
        omega
      · rw [if_neg h5]
        have := ih (by omega)
        simp [countNl]
        omega
  | case7 a rest counter lines h1 h2 h3 h4 ih =>
      intro hl
      rw [sanitize, if_neg h1, if_neg (by simpa using h2), if_neg (by simpa using h3),
        if_pos h4]
      by_cases h5 : lines + 1 ≥ MAX_LINES
      · rw [if_pos h5]
        simp [countNl]
        omega
      · rw [if_neg h5]
        have := ih (by omega)
        simp [countNl]
        omega
  | case8 a rest counter lines h1 h2 h3 h4 ih =>
      intro hl
      rw [sanitize, if_neg h1, if_neg (by simpa using h2), if_neg (by simpa using h3),
        if_neg h4, if_neg (by omega : ¬lines ≥ MAX_LINES)]
      have := ih hl
      simp [countNl]
      omega

theorem sanitize_runsAux (safe : Nat → Bool) (h10 : safe 10 = false) :
    ∀ (l : List Nat) (counter lines : Nat), counter < MAX_CHARS_PER_LINE →
      ∀ best, runsAux (sanitize safe l counter lines) counter best ≤
        max best MAX_CHARS_PER_LINE := by
  intro l counter lines
  induction l, counter, lines using sanitize.induct safe with
  | case1 counter lines =>
      intro hcnt best
      simp [sanitize, runsAux]
      omega
  | case2 a rest counter lines h1 h2 ih =>
      intro hcnt best
      have ha : a ≠ 10 := by
        rcases (show safe a = true ∨ a = 9 by simpa using h1) with h | h
        · intro he; rw [he, h10] at h; exact Bool.noConfusion h
        · omega
      rw [sanitize, if_pos h1, if_pos h2]
      rw [show runsAux (a :: 10 ::
            (if lines + 1 ≥ MAX_LINES then [] else sanitize safe rest 0 (lines + 1)))
            counter best =
          runsAux (if lines + 1 ≥ MAX_LINES then [] else sanitize safe rest 0 (lines + 1))
            0 (max (counter + 1) best) from by
        simp [runsAux, ha]]
      by_cases h3 : lines + 1 ≥ MAX_LINES
      · rw [if_pos h3]
        simp [runsAux]
        omega
      · rw [if_neg h3]
        have := ih (by simp [MAX_CHARS_PER_LINE]) (max (counter + 1) best)
        omega
  | case3 a rest counter lines h1 h2 ih =>
      intro hcnt best
      have ha : a ≠ 10 := by
        rcases (show safe a = true ∨ a = 9 by simpa using h1) with h | h
        · intro he; rw [he, h10] at h; exact Bool.noConfusion h
        · omega
      rw [sanitize, if_pos h1, if_neg h2]
      rw [show runsAux (a ::
            (if lines ≥ MAX_LINES then [] else sanitize safe rest (counter + 1) lines))
            counter best =
          runsAux (if lines ≥ MAX_LINES then [] else sanitize safe rest (counter + 1) lines)
            (counter + 1) best from by
        simp [runsAux, ha]]
      by_cases h3 : lines ≥ MAX_LINES
      · rw [if_pos h3]
        simp [runsAux]
        omega
      · rw [if_neg h3]
        exact ih (by omega) best
  | case4 a rest counter lines h1 h2 ih =>
      intro hcnt best
      rw [sanitize, if_neg h1, if_pos h2]
      rw [show runsAux (10 ::
            (if lines + 1 ≥ MAX_LINES then [] else sanitize safe rest 0 (lines + 1)))
            counter best =
          runsAux (if lines + 1 ≥ MAX_LINES then [] else sanitize safe rest 0 (lines + 1))
            0 (max counter best) from by
        simp [runsAux]]
      by_cases h3 : lines + 1 ≥ MAX_LINES
      · rw [if_pos h3]
        simp [runsAux]
        omega
      · rw [if_neg h3]
        have := ih (by simp [MAX_CHARS_PER_LINE]) (max counter best)
        omega
  | case5 a rest counter lines h1 h2 h3 h4 ih =>
      intro hcnt best
      rw [sanitize, if_neg h1, if_neg (by simpa using h2), if_pos h3, if_pos h4]
      exact ih hcnt best
  | case6 a rest counter lines h1 h2 h3 h4 ih =>
      intro hcnt best
      rw [sanitize, if_neg h1, if_neg (by simpa using h2), if_pos h3,
        if_neg (by simpa using h4)]
      rw [show runsAux (10 ::
            (if lines + 1 ≥ MAX_LINES then [] else sanitize safe rest 0 (lines + 1)))
            counter best =
          runsAux (if lines + 1 ≥ MAX_LINES then [] else sanitize safe rest 0 (lines + 1))
            0 (max counter best) from by
        simp [runsAux]]
      by_cases h5 : lines + 1 ≥ MAX_LINES
      · rw [if_pos h5]
        simp [runsAux]
        omega
      · rw [if_neg h5]
        have := ih (by simp [MAX_CHARS_PER_LINE]) (max counter best)
        omega
  | case7 a rest counter lines h1 h2 h3 h4 ih =>
      intro hcnt best
      rw [sanitize, if_neg h1, if_neg (by simpa using h2), if_neg (by simpa using h3),
        if_pos h4]
      rw [show runsAux (65533 :: 10 ::
            (if lines + 1 ≥ MAX_LINES then [] else sanitize safe rest 0 (lines + 1)))
            counter best =
          runsAux (if lines + 1 ≥ MAX_LINES then [] else sanitize safe rest 0 (lines + 1))
            0 (max (counter + 1) best) from by
        simp [runsAux]]
      by_cases h5 : lines + 1 ≥ MAX_LINES
      · rw [if_pos h5]
        simp [runsAux]
        omega
      · rw [if_neg h5]
        have := ih (by simp [MAX_CHARS_PER_LINE]) (max (counter + 1) best)
        omega
  | case8 a rest counter lines h1 h2 h3 h4 ih =>
      intro hcnt best
      rw [sanitize, if_neg h1, if_neg (by simpa using h2), if_neg (by simpa using h3),
        if_neg h4]
      rw [show runsAux (65533 ::
            (if lines ≥ MAX_LINES then [] else sanitize safe rest (counter + 1) lines))
            counter best =
          runsAux (if lines ≥ MAX_LINES then [] else sanitize safe rest (counter + 1) lines)
            (counter + 1) best from by
        simp [runsAux]]
      by_cases h5 : lines ≥ MAX_LINES
      · rw [if_pos h5]
        simp [runsAux]
        omega
      · rw [if_neg h5]
        exact ih (by omega) best

/-- C2: with the display classifier rejecting the newline control
character, every code point of `sanitize_str safe s` is classifier-safe, a
tab, a newline or U+FFFD; the output holds at most 500 newlines; and no
newline-free run of the output exceeds 1000 code points. -/
theorem sanitize_str_props (safe : Nat → Bool) (s : List Nat) (h10 : safe 10 = false) :
    (∀ c ∈ sanitize_str safe s, safe c = true ∨ c = 9 ∨ c = 10 ∨ c = 65533) ∧
    countNl (sanitize_str safe s) ≤ MAX_LINES ∧
    maxRun (sanitize_str safe s) ≤ MAX_CHARS_PER_LINE := by
  refine ⟨fun c hc => sanitize_mem_chars safe s 0 0 c hc, ?_, ?_⟩
  · have := sanitize_countNl safe h10 s 0 0 (by simp [MAX_LINES])
    simp only [sanitize_str]
    omega
  · have := sanitize_runsAux safe h10 s 0 0 (by simp [MAX_CHARS_PER_LINE]) 0
    simpa [maxRun, sanitize_str] using this

/-- A concrete stand-in display classifier: printable ASCII. -/
def safeLatin (c : Nat) : Bool := decide (32 ≤ c ∧ c ≤ 126)

theorem sanitize_str_props_witness :
    safeLatin 10 = false ∧
    ((∀ c ∈ sanitize_str safeLatin [97, 5, 13, 10, 98],
        safeLatin c = true ∨ c = 9 ∨ c = 10 ∨ c = 65533) ∧
      countNl (sanitize_str safeLatin [97, 5, 13, 10, 98]) ≤ MAX_LINES ∧
      maxRun (sanitize_str safeLatin [97, 5, 13, 10, 98]) ≤ MAX_CHARS_PER_LINE) :=
  ⟨by decide, sanitize_str_props safeLatin [97, 5, 13, 10, 98] (by decide)⟩

theorem sanFixed_fixed (safe : Nat → Bool) (h10 : safe 10 = false) :
    ∀ (l : List Nat) (counter lines : Nat),
      (∀ c ∈ l, safe c = true ∨ c = 9 ∨ c = 10 ∨ c = 65533) →
      lines < MAX_LINES → sanFixed l counter lines = true →
      sanitize safe l counter lines = l := by
  intro l counter lines
  induction l, counter, lines using sanitize.induct safe with
  | case1 counter lines =>
      intro _ _ _
      rfl
  | case2 a rest counter lines h1 h2 ih =>
      intro hch hl hfx
      have ha : ¬a = 10 := by
        rcases (show safe a = true ∨ a = 9 by simpa using h1) with h | h
        · intro he; rw [he, h10] at h; exact Bool.noConfusion h
        · omega
      rw [sanFixed, if_neg ha] at hfx
      have : counter + 1 ≤ 999 := by
        have := (Bool.and_eq_true _ _).mp hfx
        exact of_decide_eq_true this.1
      simp [MAX_CHARS_PER_LINE] at h2
      omega
  | case3 a rest counter lines h1 h2 ih =>
      intro hch hl hfx
      have ha : ¬a = 10 := by
        rcases (show safe a = true ∨ a = 9 by simpa using h1) with h | h
        · intro he; rw [he, h10] at h; exact Bool.noConfusion h
        · omega
      rw [sanFixed, if_neg ha] at hfx
      have hfx2 := (Bool.and_eq_true _ _).mp hfx
      rw [sanitize, if_pos h1, if_neg h2, if_neg (by omega : ¬lines ≥ MAX_LINES)]
      rw [ih (fun c hc => hch c (List.mem_cons_of_mem a hc)) hl hfx2.2]
  | case4 a rest counter lines h1 h2 ih =>
      intro hch hl hfx
      have ha : a = 10 := by simpa using h2
      rw [sanFixed, if_pos ha] at hfx
      rw [sanitize, if_neg h1, if_pos h2]
      by_cases h3 : lines + 1 ≥ MAX_LINES
      · rw [if_pos h3] at hfx ⊢
        rw [ha, List.isEmpty_iff.mp hfx]
      · rw [if_neg h3] at hfx ⊢
        rw [ha, ih (fun c hc => hch c (List.mem_cons_of_mem a hc)) (by omega) hfx]
  | case5 a rest counter lines h1 h2 h3 h4 ih =>
      intro hch hl hfx
      have ha : a = 13 := by simpa using h3
      have hsafe : safe a = false ∧ ¬a = 9 := by simpa using h1
      rcases hch a (List.mem_cons_self a rest) with h | h | h | h
      · rw [hsafe.1] at h
        exact Bool.noConfusion h
      · exact absurd h hsafe.2
      · exact absurd (by simpa [h] using h2) (fun hx => hx)
      · omega
  | case6 a rest counter lines h1 h2 h3 h4 ih =>
      intro hch hl hfx
      have ha : a = 13 := by simpa using h3
      have hsafe : safe a = false ∧ ¬a = 9 := by simpa using h1
      rcases hch a (List.mem_cons_self a rest) with h | h | h | h
      · rw [hsafe.1] at h
        exact Bool.noConfusion h
      · exact absurd h hsafe.2
      · exact absurd (by simpa [h] using h2) (fun hx => hx)
      · omega
  | case7 a rest counter lines h1 h2 h3 h4 ih =>
      intro hch hl hfx
      have ha : ¬a = 10 := by simpa using h2
      rw [sanFixed, if_neg ha] at hfx
      have : counter + 1 ≤ 999 := by
        have := (Bool.and_eq_true _ _).mp hfx
        exact of_decide_eq_true this.1
      simp [MAX_CHARS_PER_LINE] at h4
      omega
  | case8 a rest counter lines h1 h2 h3 h4 ih =>
      intro hch hl hfx
      have ha : a = 65533 := by
        have hsafe : safe a = false ∧ ¬a = 9 := by simpa using h1
        rcases hch a (List.mem_cons_self a rest) with h | h | h | h
        · rw [hsafe.1] at h
          exact Bool.noConfusion h
        · exact absurd h hsafe.2
        · exact absurd (by simpa [h] using h2) (fun hx => hx)
        · exact h
      have ha10 : ¬a = 10 := by simpa using h2
      rw [sanFixed, if_neg ha10] at hfx
      have hfx2 := (Bool.and_eq_true _ _).mp hfx
      rw [sanitize, if_neg h1, if_neg (by simpa using h2), if_neg (by simpa using h3),
        if_neg h4, if_neg (by omega : ¬lines ≥ MAX_LINES)]
      rw [← ha, ih (fun c hc => hch c (List.mem_cons_of_mem a hc)) hl hfx2.2]

theorem sanitize_sanFixed (safe : Nat → Bool) (h10 : safe 10 = false)
    (h13 : safe 13 = false) :
    ∀ (l : List Nat) (counter lines : Nat), lines < MAX_LINES →
      inputRunsOk l counter = true →
      sanFixed (sanitize safe l counter lines) counter lines = true := by
  intro l counter lines
  induction l, counter, lines using sanitize.induct safe with
  | case1 counter lines =>
      intro _ _
      rfl
  | case2 a rest counter lines h1 h2 ih =>
      intro hl hruns
      have ha : ¬(a = 10 ∨ a = 13) := by
        rcases (show safe a = true ∨ a = 9 by simpa using h1) with h | h
        · rintro (he | he) <;> rw [he] at h
          · rw [h10] at h
            exact Bool.noConfusion h
          · rw [h13] at h
            exact Bool.noConfusion h
        · omega
      rw [inputRunsOk, if_neg (by simpa using ha)] at hruns
      have : counter + 1 ≤ 999 := by
        have := (Bool.and_eq_true _ _).mp hruns
        exact of_decide_eq_true this.1
      simp [MAX_CHARS_PER_LINE] at h2
      omega
  | case3 a rest counter lines h1 h2 ih =>
      intro hl hruns
      have ha : ¬(a = 10 ∨ a = 13) := by
        rcases (show safe a = true ∨ a = 9 by simpa using h1) with h | h
        · rintro (he | he) <;> rw [he] at h
          · rw [h10] at h
            exact Bool.noConfusion h
          · rw [h13] at h
            exact Bool.noConfusion h
        · omega
      rw [inputRunsOk, if_neg (by simpa using ha)] at hruns
      have hruns2 := (Bool.and_eq_true _ _).mp hruns
      rw [sanitize, if_pos h1, if_neg h2, if_neg (by omega : ¬lines ≥ MAX_LINES)]
      rw [sanFixed, if_neg (by omega : ¬a = 10)]
      exact (Bool.and_eq_true _ _).mpr ⟨hruns2.1, ih hl hruns2.2⟩
  | case4 a rest counter lines h1 h2 ih =>
      intro hl hruns
      have ha : a = 10 := by simpa using h2
      rw [inputRunsOk, if_pos (by simp [ha])] at hruns
      rw [sanitize, if_neg h1, if_pos h2]
      by_cases h3 : lines + 1 ≥ MAX_LINES
      · rw [if_pos h3]
        rw [sanFixed, if_pos rfl, if_pos h3]
        rfl
      · rw [if_neg h3]
        rw [sanFixed, if_pos rfl, if_neg h3]
        exact ih (by omega) hruns
  | case5 a rest counter lines h1 h2 h3 h4 ih =>
      intro hl hruns
      have ha : a = 13 := by simpa using h3
      rw [inputRunsOk, if_pos (by simp [ha])] at hruns
      rw [sanitize, if_neg h1, if_neg (by simpa using h2), if_pos h3, if_pos h4]
      cases rest with
      | nil => exact absurd h4 (by simp [peekIsNl])
      | cons x xs =>
          have hx : x = 10 := by simpa [peekIsNl] using h4
          apply ih hl
          rw [inputRunsOk, if_pos (by simp [hx])]
          rw [inputRunsOk, if_pos (by simp [hx])] at hruns
          exact hruns
  | case6 a rest counter lines h1 h2 h3 h4 ih =>
      intro hl hruns
      have ha : a = 13 := by simpa using h3
      rw [inputRunsOk, if_pos (by simp [ha])] at hruns
      rw [sanitize, if_neg h1, if_neg (by simpa using h2), if_pos h3,
        if_neg (by simpa using h4)]
      by_cases h5 : lines + 1 ≥ MAX_LINES
      · rw [if_pos h5]
        rw [sanFixed, if_pos rfl, if_pos h5]
        rfl
      · rw [if_neg h5]
        rw [sanFixed, if_pos rfl, if_neg h5]
        exact ih (by omega) hruns
  | case7 a rest counter lines h1 h2 h3 h4 ih =>
      intro hl hruns
      have ha : ¬(a = 10 ∨ a = 13) := by
        rintro (he | he)
        · exact absurd (by simpa [he] using h2) (fun hx => hx)
        · exact absurd (by simpa [he] using h3) (fun hx => hx)
      rw [inputRunsOk, if_neg (by simpa using ha)] at hruns
      have : counter + 1 ≤ 999 := by
        have := (Bool.and_eq_true _ _).mp hruns
        exact of_decide_eq_true this.1
      simp [MAX_CHARS_PER_LINE] at h4
      omega
  | case8 a rest counter lines h1 h2 h3 h4 ih =>
      intro hl hruns
      have ha : ¬(a = 10 ∨ a = 13) := by
        rintro (he | he)
        · exact absurd (by simpa [he] using h2) (fun hx => hx)
        · exact absurd (by simpa [he] using h3) (fun hx => hx)
      rw [inputRunsOk, if_neg (by simpa using ha)] at hruns
      have hruns2 := (Bool.and_eq_true _ _).mp hruns
      rw [sanitize, if_neg h1, if_neg (by simpa using h2), if_neg (by simpa using h3),
        if_neg h4, if_neg (by omega : ¬lines ≥ MAX_LINES)]
      rw [sanFixed, if_neg (by omega : ¬(65533 : Nat) = 10)]
      exact (Bool.and_eq_true _ _).mpr ⟨hruns2.1, ih hl hruns2.2⟩

/-- C5 (amended): with a display classifier that rejects the newline and
carriage-return control characters, sanitization is idempotent on every
string whose newline-free segments (split at LF and CR) have at most 999
code points — i.e. whenever no line-wrap newline gets inserted.  (On a
1000-code-point run the claim fails, see the counterexample.) -/
theorem sanitize_idempotent_short_lines (safe : Nat → Bool) (s : List Nat)
    (h10 : safe 10 = false) (h13 : safe 13 = false)
    (hruns : inputRunsOk s 0 = true) :
    sanitize_str safe (sanitize_str safe s) = sanitize_str safe s :=
  sanFixed_fixed safe h10 (sanitize_str safe s) 0 0
    (fun c hc => sanitize_mem_chars safe s 0 0 c hc)
    (by simp [MAX_LINES])
    (sanitize_sanFixed safe h10 h13 s 0 0 (by simp [MAX_LINES]) hruns)

theorem sanitize_idempotent_short_lines_witness :
    safeLatin 10 = false ∧ safeLatin 13 = false ∧
      inputRunsOk [97, 13, 97] 0 = true ∧
      sanitize_str safeLatin (sanitize_str safeLatin [97, 13, 97]) =
        sanitize_str safeLatin [97, 13, 97] :=
  ⟨by decide, by decide, by decide,
    sanitize_idempotent_short_lines safeLatin [97, 13, 97] (by decide) (by decide)
      (by decide)⟩

set_option maxRecDepth 100000 in
/-- C5 (counterexample): sanitization is not idempotent.  On 1001 copies
of the letter `a` the sanitizer wraps the line after 1000 code points, so
the first pass produces a line of exactly 1000 code points, and the second
pass inserts a further newline before the wrap newline of the first pass.
(The same happens with any classifier that accepts some code point.) -/
theorem sanitize_not_idempotent :
    sanitize_str safeLatin (sanitize_str safeLatin (List.replicate 1001 97)) ≠
      sanitize_str safeLatin (List.replicate 1001 97) := by decide

/-! ## Theorems about the image validator (claim C6) -/

/-- C6: every `ImageParameters` value accepted by `serialize_image`
satisfies `rowstride * height ≤ data.length`,
`channels * width ≤ rowstride`, `channels ∈ {3,4}` with
`channels = 3 + (has_alpha ? 1 : 0)`, `bits_per_sample = 8`,
`1 ≤ width ≤ 255`, `1 ≤ height ≤ 255` and `data.length ≤ 2 MiB`; the two
division checks are exact (floor division of nonnegative values). -/
theorem serialize_image_accepted_bounds (p : ImageParameters) (v : SerializedImage)
    (h : serialize_image p = .ok v) :
    p.untrusted_rowstride * p.untrusted_height ≤ (p.untrusted_data.length : Int) ∧
    p.untrusted_channels * p.untrusted_width ≤ p.untrusted_rowstride ∧
    (p.untrusted_channels = 3 ∨ p.untrusted_channels = 4) ∧
    p.untrusted_channels = 3 + (if p.untrusted_has_alpha then 1 else 0) ∧
    p.untrusted_bits_per_sample = 8 ∧
    1 ≤ p.untrusted_width ∧ p.untrusted_width ≤ 255 ∧
    1 ≤ p.untrusted_height ∧ p.untrusted_height ≤ 255 ∧
    p.untrusted_data.length ≤ 2097152 := by
  simp only [serialize_image] at h
  set k : Int := if p.untrusted_has_alpha then 1 else 0 with hk
  have hk01 : k = 1 ∨ k = 0 := by
    rw [hk]
    split
    · exact Or.inl rfl
    · exact Or.inr rfl
  split at h
  · exact Except.noConfusion h
  split at h
  · exact Except.noConfusion h
  split at h
  · exact Except.noConfusion h
  split at h
  · exact Except.noConfusion h
  split at h
  · exact Except.noConfusion h
  split at h
  · exact Except.noConfusion h
  split at h
  · exact Except.noConfusion h
  rename_i h1 h2 h3 h4 h5 h6 h7
  push_neg at h1 h2 h4 h5 h6 h7
  have hch : p.untrusted_channels = 3 + k := by
    push_neg at h3
    exact h3
  have hch34 : p.untrusted_channels = 3 ∨ p.untrusted_channels = 4 := by omega
  obtain ⟨hw1, hh1, hrs⟩ := h4
  obtain ⟨hwM, hhM⟩ := h5
  have hlen0 : (0 : Int) ≤ (p.untrusted_data.length : Int) := Int.natCast_nonneg _
  have hchpos : (0 : Int) < p.untrusted_channels := by omega
  have hdiv1 : p.untrusted_rowstride ≤
      Int.tdiv (p.untrusted_data.length : Int) p.untrusted_height := h6
  rw [Int.tdiv_eq_ediv hlen0 (by omega)] at hdiv1
  have hmul1 : p.untrusted_rowstride * p.untrusted_height ≤
      (p.untrusted_data.length : Int) :=
    (Int.le_ediv_iff_mul_le (by omega)).mp hdiv1
  have hrs0 : (0 : Int) ≤ p.untrusted_rowstride := by omega
  have hdiv2 : p.untrusted_width ≤ Int.tdiv p.untrusted_rowstride (3 + k) := h7
  rw [Int.tdiv_eq_ediv hrs0 (by omega)] at hdiv2
  have hmul2 : p.untrusted_width * (3 + k) ≤ p.untrusted_rowstride :=
    (Int.le_ediv_iff_mul_le (by omega)).mp hdiv2
  refine ⟨hmul1, ?_, hch34, hch, h1, hw1, ?_, hh1, ?_, ?_⟩
  · rw [hch, Int.mul_comm]
    exact hmul2
  · simpa [MAX_WIDTH] using hwM
  · simpa [MAX_HEIGHT] using hhM
  · simpa [MAX_SIZE] using h2

/-- The accepted sample image of the repository's own test
(lib.rs `test_image_validation`). -/
def wImage : ImageParameters :=
  { untrusted_width := 1
    untrusted_height := 1
    untrusted_rowstride := 4
    untrusted_has_alpha := true
    untrusted_bits_per_sample := 8
    untrusted_channels := 4
    untrusted_data := [0, 0, 0, 0] }

theorem serialize_image_accepted_bounds_witness :
    serialize_image wImage =
      .ok { width := 1, height := 1, rowstride := 4, has_alpha := true,
            bits_per_sample := 8, channels := 4, data := [0, 0, 0, 0] } ∧
    (wImage.untrusted_rowstride * wImage.untrusted_height ≤
        (wImage.untrusted_data.length : Int) ∧
      wImage.untrusted_channels * wImage.untrusted_width ≤ wImage.untrusted_rowstride ∧
      (wImage.untrusted_channels = 3 ∨ wImage.untrusted_channels = 4) ∧
      wImage.untrusted_channels = 3 + (if wImage.untrusted_has_alpha then 1 else 0) ∧
      wImage.untrusted_bits_per_sample = 8 ∧
      1 ≤ wImage.untrusted_width ∧ wImage.untrusted_width ≤ 255 ∧
      1 ≤ wImage.untrusted_height ∧ wImage.untrusted_height ≤ 255 ∧
      wImage.untrusted_data.length ≤ 2097152) :=
  ⟨by rfl, serialize_image_accepted_bounds wImage _ (by rfl)⟩

/-! ## Theorems about the category validator (claim C9) -/

theorem azdotB_and_ne (x : Nat) : (azdotB x && (x != 46)) = azB x := by
  unfold azdotB azB
  by_cases h1 : 97 ≤ x ∧ x ≤ 122
  · have h2 : ¬x = 46 := by omega
    simp [h1, h2]
  · by_cases h2 : x = 46 <;> simp [h1, h2]

theorem all_azdot_last_ne (x : Nat) (rest : List Nat) :
    ((x :: rest).all azdotB && ((x :: rest).getLastD 0 != 46)) =
    ((x :: rest).dropLast.all azdotB && azB ((x :: rest).getLastD 0)) := by
  induction rest generalizing x with
  | nil =>
      show ((azdotB x && true) && (x != 46)) = (true && azB x)
      rw [Bool.and_true, Bool.true_and, azdotB_and_ne]
  | cons b tail ih =>
      have hL : (x :: b :: tail).getLastD 0 = (b :: tail).getLastD 0 := by
        simp [List.getLastD_cons]
      have hD : (x :: b :: tail).dropLast = x :: (b :: tail).dropLast := rfl
      rw [hL, hD]
      rw [show (x :: b :: tail).all azdotB = (azdotB x && (b :: tail).all azdotB) from by
        simp]
      rw [show (x :: (b :: tail).dropLast).all azdotB =
          (azdotB x && (b :: tail).dropLast.all azdotB) from by simp]
      rw [Bool.and_assoc, Bool.and_assoc, ih b]

/-- C9 (amended): the host-side category check accepts a byte string if
and only if it matches the specification's regular expression
`[a-z][a-z.]{0,62}[a-z]` or is a single lowercase letter (which the
regular expression misses); and an invalid category is a hard error for
the whole notify — `send_notification` answers the `MissingParameter`
error `Invalid category`, makes no `Notify` call and leaves the mapping
unchanged. -/
theorem category_validator_regex :
    (∀ cat : List Nat, categoryValid cat = true ↔
      (categorySpecRegex cat = true ∨ (cat.length = 1 ∧ azB (cat.headD 0) = true))) ∧
    (∀ (safe : Nat → Bool) (cfg : EmitterConfig) (m : Maps) (n : NotificationV1)
        (reply : Except ZbusError Nat) (cat : List Nat),
      n.category = some cat → categoryValid cat = false →
      n.replaces_id = 0 → ¬n.expire_timeout < -1 → n.actions = [] →
      (send_notification safe cfg m n reply).result =
          .err (.missingParameter ("Invalid category")) ∧
        (send_notification safe cfg m n reply).notifyCall = none ∧
        (send_notification safe cfg m n reply).maps = m) := by
  constructor
  · intro cat
    match cat with
    | [] => simp [categoryValid, categorySpecRegex]
    | [b] =>
        rw [show categoryValid [b] = (azB b && (b != 46)) from by
          simp only [categoryValid]
          rw [if_neg (by simp)]
          simp]
        constructor
        · intro hv
          have hb := (Bool.and_eq_true _ _).mp hv
          exact Or.inr ⟨rfl, hb.1⟩
        · rintro (hr | hr)
          · exact absurd hr (by simp [categorySpecRegex])
          · have hb : azB b = true := hr.2
            have hb2 : 97 ≤ b ∧ b ≤ 122 := of_decide_eq_true hb
            have hne : (b != 46) = true := by
              simp only [bne_iff_ne, ne_eq]
              omega
            rw [hb, hne]
            rfl
    | b0 :: b1 :: t =>
        have hsing : ¬((b0 :: b1 :: t).length = 1) := by simp
        by_cases hlen : (b0 :: b1 :: t).length > 64
        · have h1 : categoryValid (b0 :: b1 :: t) = false := by
            simp only [categoryValid, if_pos hlen]
          have h2 : categorySpecRegex (b0 :: b1 :: t) = false := by
            have hle : decide ((b0 :: b1 :: t).length ≤ 64) = false := by
              rw [decide_eq_false_iff_not]
              omega
            simp only [categorySpecRegex, hle, Bool.and_false, Bool.false_and]
          rw [h1, h2]
          simp [hsing]
        · have hGL : (b0 :: b1 :: t).getLastD 0 = (b1 :: t).getLastD 0 := by
            simp [List.getLastD_cons]
          have h1 : categoryValid (b0 :: b1 :: t) =
              (azB b0 && ((b1 :: t).all azdotB && ((b1 :: t).getLastD 0 != 46))) := by
            simp only [categoryValid, if_neg hlen, hGL, Bool.and_assoc]
          have ha2 : decide (2 ≤ (b0 :: b1 :: t).length) = true := by
            rw [decide_eq_true_eq]
            simp
          have hb64 : decide ((b0 :: b1 :: t).length ≤ 64) = true := by
            rw [decide_eq_true_eq]
            omega
          have h2 : categorySpecRegex (b0 :: b1 :: t) =
              (azB b0 && ((b1 :: t).dropLast.all azdotB && azB ((b1 :: t).getLastD 0))) := by
            simp only [categorySpecRegex, ha2, hb64, Bool.true_and, Bool.and_assoc]
          rw [h1, all_azdot_last_ne, h2]
          constructor
          · intro hv
            exact Or.inl hv
          · rintro (hr | hr)
            · exact hr
            · exact absurd hr.1 hsing
  · intro safe cfg m n reply cat hcat hval hrep hexp hact
    refine ⟨?_, ?_, ?_⟩ <;>
      simp [send_notification, hrep, hexp, hact, hcat, hval, processActions]

/-- C9 (counterexample): the single-letter category `"a"` is accepted by
the code but does not match the specification's regular expression
`[a-z][a-z.]{0,62}[a-z]`, which requires at least two bytes. -/
theorem category_regex_counterexample :
    categoryValid [97] = true ∧ categorySpecRegex [97] = false := by decide

/-- An emitter configuration advertising no capability. -/
def wCfg : EmitterConfig :=
  { capabilities :=
      { body := false, body_markup := false, persistence := false, sound := false,
        actions := false }
    prependText := []
    application_name := "" }

/-- A notification carrying the invalid category `"."` and nothing else. -/
def wBadCatNotif : NotificationV1 :=
  { suppress_sound := false
    transient := false
    resident := false
    urgency := none
    replaces_id := 0
    summary := []
    body := []
    actions := []
    category := some [46]
    expire_timeout := -1
    image := none }

theorem category_validator_regex_witness :
    (categoryValid [97, 46, 98] = true ↔
      (categorySpecRegex [97, 46, 98] = true ∨
        ([97, 46, 98] : List Nat).length = 1 ∧ azB (([97, 46, 98] : List Nat).headD 0) = true)) ∧
    ((send_notification safeLatin wCfg mapsDefault wBadCatNotif (.ok 42)).result =
        .err (.missingParameter ("Invalid category")) ∧
      (send_notification safeLatin wCfg mapsDefault wBadCatNotif (.ok 42)).notifyCall =
        none ∧
      (send_notification safeLatin wCfg mapsDefault wBadCatNotif (.ok 42)).maps =
        mapsDefault) :=
  ⟨category_validator_regex.1 [97, 46, 98],
    category_validator_regex.2 safeLatin wCfg mapsDefault wBadCatNotif (.ok 42) [46]
      rfl (by decide) rfl (by decide) rfl⟩

/-! ## Theorems about `replaces_id` handling (claim C3) -/

/-- A notification replacing the unknown guest ID 7. -/
def wReplaces7 : NotificationV1 :=
  { suppress_sound := false
    transient := false
    resident := false
    urgency := none
    replaces_id := 7
    summary := []
    body := []
    actions := []
    category := none
    expire_timeout := -1
    image := none }

/-- A fresh notification (`replaces_id = 0`). -/
def wNewNotif : NotificationV1 :=
  { wReplaces7 with replaces_id := 0 }

/-- The `Notify` call produced for `wNewNotif` under `wCfg`. -/
def wCall : NotifyCall :=
  { app_name := ""
    replaces_id := 0
    app_icon := ""
    summary := []
    body := []
    actions := []
    hints := []
    expire_timeout := -1 }

/-- C3 (amended): a non-zero `replaces_id` that is not in the
guest-to-host map makes `send_notification` fail with the diagnostic
`Failure` error `ID <id> not found in guest-to-host lookup map` (a generic
failure, not a D-Bus `InvalidArgs` error — the server loop relays it to
the guest as `UnknownError`); no `Notify` call reaches the real service
and the mapping state is unchanged.  `replaces_id = 0` is treated as a new
notification: any `Notify` call that is made carries host ID 0. -/
theorem replaces_id_behavior :
    (∀ (safe : Nat → Bool) (cfg : EmitterConfig) (m : Maps) (n : NotificationV1)
        (reply : Except ZbusError Nat),
      n.replaces_id ≠ 0 → m.lookup_guest_id n.replaces_id = none →
      (send_notification safe cfg m n reply).result =
          .err (.failure ("ID " ++ Nat.repr n.replaces_id ++
            " not found in guest-to-host lookup map")) ∧
        (send_notification safe cfg m n reply).notifyCall = none ∧
        (send_notification safe cfg m n reply).maps = m) ∧
    (∀ (safe : Nat → Bool) (cfg : EmitterConfig) (m : Maps) (n : NotificationV1)
        (reply : Except ZbusError Nat) (c : NotifyCall),
      n.replaces_id = 0 →
      (send_notification safe cfg m n reply).notifyCall = some c →
      c.replaces_id = 0) := by
  constructor
  · intro safe cfg m n reply h0 hlk
    refine ⟨?_, ?_, ?_⟩ <;> simp [send_notification, h0, Maps.lookup_guest_id,
      (show m.guest_to_host_map n.replaces_id = none from hlk)]
  · intro safe cfg m n reply c h0 hcall
    obtain ⟨ss, tr, res, urg, rid, summ, bod, acts, catg, exp, img⟩ := n
    simp only at h0
    subst h0
    simp only [send_notification, if_pos (rfl : (0 : Nat) = 0)] at hcall
    repeat any_goals split at hcall
    all_goals
      first
        | exact Option.noConfusion hcall
        | (cases hcall; rfl)
        | (exfalso; simp_all)

theorem replaces_id_behavior_witness :
    ((send_notification safeLatin wCfg mapsDefault wReplaces7 (.ok 42)).result =
        .err (.failure ("ID " ++ Nat.repr 7 ++ " not found in guest-to-host lookup map")) ∧
      (send_notification safeLatin wCfg mapsDefault wReplaces7 (.ok 42)).notifyCall =
        none ∧
      (send_notification safeLatin wCfg mapsDefault wReplaces7 (.ok 42)).maps =
        mapsDefault) ∧
    wCall.replaces_id = 0 :=
  ⟨replaces_id_behavior.1 safeLatin wCfg mapsDefault wReplaces7 (.ok 42)
      (by decide) rfl,
    replaces_id_behavior.2 safeLatin wCfg mapsDefault wNewNotif (.ok 42) wCall rfl rfl⟩

/-- C3 (counterexample): on `replaces_id = 7` with an empty map the error
is a `Failure`, which the server loop (server bin lines 144-159) relays as
`UnknownError` — not as a D-Bus `InvalidArgs` error. -/
theorem replaces_unknown_counterexample :
    (send_notification safeLatin wCfg mapsDefault wReplaces7 (.ok 42)).result =
      .err (.failure ("ID 7 not found in guest-to-host lookup map")) ∧
    (send_notification safeLatin wCfg mapsDefault wReplaces7 (.ok 42)).notifyCall =
      none ∧
    (send_notification safeLatin wCfg mapsDefault wReplaces7 (.ok 42)).maps =
      mapsDefault ∧
    replyFor (send_notification safeLatin wCfg mapsDefault wReplaces7 (.ok 42)).result 3 =
      some (.unknownError 3) := by
  refine ⟨by decide, rfl, rfl, by decide⟩

/-! ## Theorems about the version handshake (claim C8) -/

/-- C8 (amended): on a major-version mismatch both sides abort before any
framed message (the client still writes its unframed version word first).
When the majors agree the client proceeds with
`min(peer_minor, MINOR_VERSION)` and answers with that minor; the server,
however, proceeds only when the peer's minor does not exceed its own
(aborting otherwise), so the min rule holds for it only because a
conforming client never sends a larger minor. -/
theorem handshake_behavior :
    ∀ v : Nat,
      ((client_handshake v).2 = none ↔ (split_version v).1 ≠ MAJOR_VERSION) ∧
      ((split_version v).1 = MAJOR_VERSION →
        (client_handshake v).2 = some (min (split_version v).2 MINOR_VERSION) ∧
        (client_handshake v).1 =
          merge_versions MAJOR_VERSION (min (split_version v).2 MINOR_VERSION)) ∧
      (server_handshake v = some () ↔
        ((split_version v).1 = MAJOR_VERSION ∧ (split_version v).2 ≤ MINOR_VERSION)) := by
  intro v
  refine ⟨?_, ?_, ?_⟩
  · unfold client_handshake
    by_cases h : (split_version v).1 ≠ MAJOR_VERSION <;> simp [h]
  · intro h
    unfold client_handshake
    simp [h]
  · unfold server_handshake
    by_cases h : ((split_version v).1 ≠ MAJOR_VERSION ∨ (split_version v).2 > MINOR_VERSION)
    · rw [if_pos h]
      constructor
      · intro hx
        exact Option.noConfusion hx
      · intro hx
        rcases h with h | h
        · exact absurd hx.1 h
        · omega
    · rw [if_neg h]
      push_neg at h
      exact ⟨fun _ => ⟨h.1, h.2⟩, fun _ => rfl⟩

theorem handshake_behavior_witness :
    (client_handshake 65536).2 = some 0 ∧
    server_handshake 65536 = some () :=
  ⟨((handshake_behavior 65536).2.1 (by decide)).1,
    ((handshake_behavior 65536).2.2).mpr ⟨by decide, by decide⟩⟩

/-- C8 (counterexample): on the peer word for version 1.1 the majors are
equal and `min(own_minor, peer_minor) = 0`, so by the claim both sides
should proceed, but the server panics because the peer minor 1 exceeds its
own minor 0. -/
theorem handshake_counterexample :
    (split_version (merge_versions 1 1)).1 = MAJOR_VERSION ∧
    min (split_version (merge_versions 1 1)).2 MINOR_VERSION = MINOR_VERSION ∧
    server_handshake (merge_versions 1 1) = none := by decide

/-! ## Theorems about the name-owner-change handler (claim C4) -/

/-- C4 (code evaluated at the failing input): on a `NameOwnerChanged`
event for `org.freedesktop.Notifications` the handler task clears both ID
maps but writes nothing to the pipe — no `ServerRestart` reply is ever
emitted, contrary to the claim that exactly one is. -/
theorem owner_change_clears_without_restart :
    ∀ m : Maps,
      owner_changed_step m ("org.freedesktop.Notifications") =
        some { maps := m.clear, emitted := [] } ∧
      (∀ g, (Maps.clear m).guest_to_host_map g = none) ∧
      (∀ h, (Maps.clear m).host_to_guest_map h = none) := by
  intro m
  exact ⟨rfl, fun _ => rfl, fun _ => rfl⟩

/-! ## Theorems about the guest reply dispatch (claim C7) -/

/-- C7 (code evaluated at the failing input): the guest-side dispatch of
an `UnknownError` reply hits the `todo!()` arm and panics for every
parking-table state and sequence number — the slot is not removed and no
waiter is completed, contrary to the claim. -/
theorem unknown_error_dispatch_panics :
    ∀ (slots : List Nat) (sequence : Nat),
      handle_reply slots (.unknownError sequence) = .panic ("not yet implemented") := by
  intro slots sequence
  rfl

end QubesNotifyProxy
